import Mathlib

/-!
Verification of the PseudosCardGame rules engine.

This file gives a shallow embedding, in Lean 4, of the rules/validation
engine of the two-player card-shedding game in this repository:

* `GameRules`  — `src/app/components/contexts/GameRules.ts`
  (hand classification `getPlayInfo`, the straight / triple-plus-two
  predicates, the five-card comparator and the stand-alone move
  comparator `isValidMove`);
* `GameCtx`    — the first `GameProvider` variant of
  `src/app/components/contexts/GameContext.tsx`
  (round state, `isValidMove` against the table, `playSelectedCards`,
  `drawCard`);
* `AIStrategy` — `AIGameStrategy.ts`
  (`findPlaysOfType`, `chooseBestPlay`) and `sortCards` from
  `src/app/lib/utils.ts`.

Modelling conventions, used throughout:

* A JavaScript record lookup `cardValues[v]` / `suitValues[s]` yields
  `undefined` off the table; every card produced by the game uses one of
  the 13 rank keys and 4 suit keys, and the embedding returns 0 for any
  other string.
* `Array.prototype.sort` with comparator
  `cardValues[a.value] - cardValues[b.value] || suitValues[a.suit] - suitValues[b.suit]`
  orders ascending lexicographically by (rank value, suit value) and is
  stable in every modern engine.  Because every suit value is at most 4,
  this lexicographic order coincides with the ascending order of the
  single natural-number key `100 * rank + suit`; the embedding sorts with
  a stable insertion sort on that key (`sortByKey`).
* `Math.random()` inside the AI's defensive override is modelled by an
  explicit boolean argument (`coin`, the outcome of `Math.random() >= 0.5`).
* Numeric subtractions that can go negative in JavaScript (only the
  hand-size message checks) are modelled over `Int`.
-/

/-- Card model from `GameRules.ts` / `GameContext.tsx`:
`{ id: number; value: string; suit: string }`. -/
structure CardType where
  id : Nat
  value : String
  suit : String
deriving DecidableEq, Repr

/-- Rank table from `GameRules.ts` (`cardValues`): "2" ↦ 2 … "A" ↦ 14.
Off-table strings map to 0 (JavaScript would yield `undefined`).  The
source's scattered `card.value === 'A' ? 14 : cardValues[card.value]`
expressions equal `cardValues` itself, since `cardValues['A'] = 14`. -/
def cardValues : String → Nat
  | "2" => 2
  | "3" => 3
  | "4" => 4
  | "5" => 5
  | "6" => 6
  | "7" => 7
  | "8" => 8
  | "9" => 9
  | "10" => 10
  | "J" => 11
  | "Q" => 12
  | "K" => 13
  | "A" => 14
  | _ => 0

/-- Suit table from `GameRules.ts` (`suitValues`): ♠ ↦ 1, ♣ ↦ 2, ♦ ↦ 3, ♥ ↦ 4.
Off-table strings map to 0. -/
def suitValues : String → Nat
  | "♠" => 1
  | "♣" => 2
  | "♦" => 3
  | "♥" => 4
  | _ => 0

/-- Single natural-number sort key encoding the lexicographic
(rank value, suit value) comparator used by every card sort in the source
(suit values are below 100, so the encoding is order-faithful). -/
def sortKey (c : CardType) : Nat := 100 * cardValues c.value + suitValues c.suit

/-- Stable insert used by `sortByKey`: on equal keys the inserted element
goes first, which (inserting front-to-back) reproduces the stability of
JavaScript's `Array.prototype.sort`. -/
def insertByKey {α : Type} (k : α → Nat) (a : α) : List α → List α
  | [] => [a]
  | b :: l => if k a ≤ k b then a :: b :: l else b :: insertByKey k a l

/-- Stable ascending sort by a natural-number key, modelling
`Array.prototype.sort` with a numeric comparator. -/
def sortByKey {α : Type} (k : α → Nat) : List α → List α
  | [] => []
  | a :: l => insertByKey k a (sortByKey k l)


namespace GameRules

/-- Union type `Play['type']` from `GameRules.ts`. -/
inductive PlayType
  | single
  | pair
  | triple
  | straight
  | fullhouse
  | quads
  | straightflush
deriving DecidableEq, Repr

/-- Record `Play` from `GameRules.ts`; `highestSuitValue` is an optional
field there, hence `Option Nat` (omitted ↦ `none`). -/
structure Play where
  type : PlayType
  cards : List CardType
  rankValue : Nat
  highestSuitValue : Option Nat := none
deriving DecidableEq, Repr

/-- JS `Array.from(new Set(rankValues)).sort((a, b) => a - b)`: the distinct
rank values in ascending numeric order.  The Set's insertion order is erased
by the numeric sort, so the order in which `dedup` keeps occurrences is
irrelevant. -/
def uniqueSortedRanks (cards : List CardType) : List Nat :=
  sortByKey (fun r => r) ((cards.map (fun c => cardValues c.value)).dedup)

/-- Adjacent `+1` check, as the `for` loops over a sorted rank list in
`isValidStraight` (GameRules.ts 133–139) and `findPlaysOfType` do. -/
def isConsecutive : List Nat → Bool
  | [] => true
  | [_] => true
  | a :: b :: l => (b == a + 1) && isConsecutive (b :: l)

/-- Function `isValidStraight` from `GameRules.ts` (lines 112–148): 5 cards
whose distinct rank values are 5 consecutive numbers, or the low-ace run
2,3,4,5,A.  With fewer than 5 distinct ranks the source's first branch
returns its `isAceLow` test, which demands `uniqueRanks.length === 5` and is
therefore false there; the embedding mirrors that branch verbatim. -/
def isValidStraight (cards : List CardType) : Bool :=
  if cards.length ≠ 5 then false
  else
    let uniqueRanks := uniqueSortedRanks cards
    if uniqueRanks.length < 5 then
      (uniqueRanks.length == 5) && (uniqueRanks == [2, 3, 4, 5, 14])
    else
      isConsecutive uniqueRanks || (uniqueRanks == [2, 3, 4, 5, 14])

/-- Function `isValidTriplePlusTwo` from `GameRules.ts` (lines 153–164): some
rank-value string occurs exactly 3 times among the 5 cards.  The source
checks `Object.values(valueCounts).some(count => count === 3)`; testing every
card's value instead of every distinct value yields the same disjunction. -/
def isValidTriplePlusTwo (cards : List CardType) : Bool :=
  if cards.length ≠ 5 then false
  else
    (cards.map (fun c => c.value)).any
      (fun v => (cards.map (fun c => c.value)).count v == 3)

/-- Function `getHighestSuitInStraight` from `GameRules.ts` (lines 169–179):
sort descending by (rank value, suit value), return the first card's suit
value.  Descending by that pair is ascending by `1500 - sortKey` (all keys
are at most 1404).  The source indexes `sortedCards[0]`, a `TypeError` on an
empty array; the function is only applied to straights of 5 cards, and the
embedding returns 0 on `[]`. -/
def getHighestSuitInStraight (cards : List CardType) : Nat :=
  match sortByKey (fun c => 1500 - sortKey c) cards with
  | [] => 0
  | c :: _ => suitValues c.suit

/-- Placeholder card naming the last element of a list already known to be
nonempty (mirrors the JS indexing `sortedCards[n - 1]`). -/
def dummyCard : CardType := { id := 0, value := "", suit := "" }

/-- Function `getPlayInfo` from `GameRules.ts` (lines 42–105): classify a
card list as a Play, or `null`.  In the five-card triple-plus-two branch the
source re-tests `!isStraightCheck`, vacuously true after the straight branch
was not taken, and takes as the tripled value the first entry of the value
counts with count 3 — the first card value (in sorted order) occurring
exactly 3 times. -/
def getPlayInfo (cards : List CardType) : Option Play :=
  if cards.length = 0 then none
  else
    let n := cards.length
    let sortedCards := sortByKey sortKey cards
    let highestCard := sortedCards.getLastD dummyCard
    let highestRankValue := cardValues highestCard.value
    let highestSuitValue := suitValues highestCard.suit
    if n = 1 then
      some { type := PlayType.single, cards := sortedCards,
             rankValue := highestRankValue,
             highestSuitValue := some highestSuitValue }
    else if n = 2 then
      match sortedCards with
      | [c0, c1] =>
        if c0.value = c1.value then
          some { type := PlayType.pair, cards := sortedCards,
                 rankValue := highestRankValue,
                 highestSuitValue :=
                   some (max (suitValues c0.suit) (suitValues c1.suit)) }
        else none
      | _ => none
    else if n = 3 then
      match sortedCards with
      | [c0, c1, c2] =>
        if c0.value = c1.value ∧ c1.value = c2.value then
          some { type := PlayType.triple, cards := sortedCards,
                 rankValue := highestRankValue }
        else none
      | _ => none
    else if n = 5 then
      if isValidStraight sortedCards then
        let uniqueRanks := uniqueSortedRanks sortedCards
        let isAceLow :=
          (uniqueRanks.length == 5) && (uniqueRanks == [2, 3, 4, 5, 14])
        let rankVal := if isAceLow then 5 else highestRankValue
        some { type := PlayType.straight, cards := sortedCards,
               rankValue := rankVal,
               highestSuitValue := some (getHighestSuitInStraight sortedCards) }
      else if isValidTriplePlusTwo sortedCards then
        let values := sortedCards.map (fun c => c.value)
        let tripleValueStr := values.find? (fun v => values.count v == 3)
        let tripleRankValue :=
          match tripleValueStr with
          | some v => cardValues v
          | none => 0
        some { type := PlayType.fullhouse, cards := sortedCards,
               rankValue := tripleRankValue }
      else none
    else none

/-- JS `Math.max(...cards.map(c => c.value === 'A' ? 14 : cardValues[c.value]))`. -/
def maxRank (cards : List CardType) : Nat :=
  (cards.map (fun c => cardValues c.value)).foldr max 0

/-- Inner helper `getTripleValue` of `compareFiveCardCombinations`: the rank
value of the first (necessarily unique among 5 cards) value string occurring
exactly 3 times, or 0 if there is none. -/
def getTripleValue (cards : List CardType) : Nat :=
  let values := cards.map (fun c => c.value)
  match values.find? (fun v => values.count v == 3) with
  | some v => cardValues v
  | none => 0

/-- Function `compareFiveCardCombinations` from `GameRules.ts`
(lines 184–219). -/
def compareFiveCardCombinations (newCards lastCards : List CardType) : Bool :=
  let isNewStraight := isValidStraight newCards
  let isLastStraight := isValidStraight lastCards
  if isNewStraight && !isLastStraight then true
  else if !isNewStraight && isLastStraight then false
  else if isNewStraight && isLastStraight then
    let newHighest := maxRank newCards
    let lastHighest := maxRank lastCards
    if newHighest > lastHighest then true
    else if newHighest < lastHighest then false
    else
      decide (getHighestSuitInStraight newCards >
        getHighestSuitInStraight lastCards)
  else
    decide (getTripleValue newCards > getTripleValue lastCards)

/-- Function `isValidMove` from `GameRules.ts` (lines 224–266): the
stand-alone comparator "do `newCards` beat `lastCards`". -/
def isValidMove (newCards lastCards : List CardType) : Bool :=
  if newCards.length = 0 ∨ lastCards.length = 0 then false
  else if newCards.length = 1 ∧ lastCards.length = 1 then
    match newCards, lastCards with
    | [newCard], [lastCard] =>
      let newValue := cardValues newCard.value
      let lastValue := cardValues lastCard.value
      if newValue > lastValue then true
      else if newValue = lastValue then
        decide (suitValues newCard.suit > suitValues lastCard.suit)
      else false
    | _, _ => false
  else if newCards.length = 2 ∧ lastCards.length = 2 then
    match newCards, lastCards with
    | [new1, new2], [last1, last2] =>
      if new1.value ≠ new2.value ∨ last1.value ≠ last2.value then false
      else
        let newValue := cardValues new1.value
        let lastValue := cardValues last1.value
        if newValue > lastValue then true
        else if newValue = lastValue then
          decide (max (suitValues new1.suit) (suitValues new2.suit) >
            max (suitValues last1.suit) (suitValues last2.suit))
        else false
    | _, _ => false
  else if newCards.length = 5 ∧ lastCards.length = 5 then
    compareFiveCardCombinations newCards lastCards
  else false

end GameRules

namespace GameCtx

/-- The `GameProvider`'s own `isValidStraight` (GameContext.tsx, first
variant, lines 79–108): aces are always high, there is no low-ace straight
here.  It sorts by rank value only (comparator `aValue - bValue`), then
tests the exact 10,J,Q,K,A pattern or adjacent `+1` over the sorted
values (so any repeated rank fails). -/
def isValidStraight (cards : List CardType) : Bool :=
  if cards.length ≠ 5 then false
  else
    let sortedCards := sortByKey (fun c => cardValues c.value) cards
    if sortedCards.map (fun c => c.value) == ["10", "J", "Q", "K", "A"] then true
    else GameRules.isConsecutive (sortedCards.map (fun c => cardValues c.value))

/-- GameContext.tsx duplicates `isValidTriplePlusTwo` verbatim
(lines 239–250). -/
def isValidTriplePlusTwo : List CardType → Bool := GameRules.isValidTriplePlusTwo

/-- GameContext.tsx duplicates `getHighestSuitInStraight` verbatim
(lines 255–265). -/
def getHighestSuitInStraight : List CardType → Nat :=
  GameRules.getHighestSuitInStraight

/-- GameContext.tsx duplicates the `getTripleValue` helper verbatim
(lines 291–298). -/
def getTripleValue : List CardType → Nat := GameRules.getTripleValue

/-- GameContext.tsx duplicates the `Math.max` rank fold verbatim. -/
def maxRank : List CardType → Nat := GameRules.maxRank

/-- The `GameProvider`'s `compareFiveCardCombinations` (GameContext.tsx
270–301): textually the comparator of GameRules.ts, but it calls the
provider's own ace-high-only `isValidStraight`. -/
def compareFiveCardCombinations (newCards lastCards : List CardType) : Bool :=
  let isNewStraight := isValidStraight newCards
  let isLastStraight := isValidStraight lastCards
  if isNewStraight && !isLastStraight then true
  else if !isNewStraight && isLastStraight then false
  else if isNewStraight && isLastStraight then
    let newHighest := maxRank newCards
    let lastHighest := maxRank lastCards
    if newHighest > lastHighest then true
    else if newHighest < lastHighest then false
    else
      decide (getHighestSuitInStraight newCards >
        getHighestSuitInStraight lastCards)
  else
    decide (getTripleValue newCards > getTripleValue lastCards)

/-- The two sides, `"player" | "computer"`. -/
inductive PlayerId
  | player
  | computer
deriving DecidableEq, Repr

/-- JS `currentPlayer === "player" ? "computer" : "player"`. -/
def otherPlayer (p : PlayerId) : PlayerId :=
  if p = PlayerId.player then PlayerId.computer else PlayerId.player

/-- React state of the first `GameProvider` variant in GameContext.tsx,
restricted to the fields that `isValidMove`, `playSelectedCards` and
`drawCard` read or write (`winner`, the win counters and `gameStarted`
live in a separate `useEffect` and are untouched by these operations).
The module-level mutable `deck` array is part of the state; `deckSize` is
the separate React counter the source keeps alongside it. -/
structure GameState where
  playerHand : List CardType
  computerHand : List CardType
  playArea : List CardType
  selectedCards : List CardType
  currentPlayer : PlayerId
  deck : List CardType
  deckSize : Nat
  gameMessage : String
  isDoublesRound : Bool
  isFiveCardRound : Bool
  lastMoveWasDouble : Bool
  lastMoveWasFiveCard : Bool
  roundReset : Bool
deriving DecidableEq, Repr

/-- JS `arr.slice(-n)` for `n ≥ 1`: the last `min n length` elements. -/
def takeLast {α : Type} (n : Nat) (l : List α) : List α :=
  l.drop (l.length - n)

/-- `getLastPlayedCards` (GameContext.tsx 226–234): the last 2 cards of the
play area when the last move was a double, else the last card — a five-card
last move is read back as one card only. -/
def getLastPlayedCards (s : GameState) : List CardType :=
  if s.playArea.length = 0 then []
  else if s.lastMoveWasDouble && s.playArea.length ≥ 2 then takeLast 2 s.playArea
  else takeLast 1 s.playArea

/-- The `GameProvider`'s `isValidMove` (GameContext.tsx 308–379): validates
the selected cards against the round flags and the tail of the play area.
Where the source reads a fixed number of cards from a possibly shorter list
(`cards[0]`, the destructuring `[n1, n2]` — reachable only through stale
flag combinations that skip the length guards), JavaScript would fault on
`undefined`; the embedding returns `false` in those arms. -/
def isValidMove (s : GameState) (cards : List CardType) : Bool :=
  if cards.length = 0 then false
  else if !s.roundReset &&
      (s.lastMoveWasDouble && cards.length != 2 ||
       s.lastMoveWasFiveCard && cards.length != 5 ||
       !s.lastMoveWasDouble && !s.lastMoveWasFiveCard && cards.length != 1) then
    false
  else if cards.length == 2 &&
      (match cards with
       | c0 :: c1 :: _ => c0.value != c1.value
       | _ => false) then
    false
  else if cards.length == 5 && !isValidTriplePlusTwo cards &&
      !isValidStraight cards then
    false
  else
    let lastPlayed := getLastPlayedCards s
    if lastPlayed.length = 0 then true
    else if lastPlayed.length = 1 then
      match lastPlayed, cards with
      | [lastCard], newCard :: _ =>
        let lastRank := cardValues lastCard.value
        let lastSuit := suitValues lastCard.suit
        let newRank := cardValues newCard.value
        let newSuit := suitValues newCard.suit
        if newRank > lastRank then true
        else if newRank = lastRank ∧ newSuit > lastSuit then true
        else false
      | _, _ => false
    else if lastPlayed.length = 2 then
      match lastPlayed, cards with
      | [c1, c2], n1 :: n2 :: _ =>
        let lastRank := cardValues c1.value
        let lastMaxSuit := max (suitValues c1.suit) (suitValues c2.suit)
        let newRank := cardValues n1.value
        let newMaxSuit := max (suitValues n1.suit) (suitValues n2.suit)
        if newRank > lastRank then true
        else if newRank = lastRank ∧ newMaxSuit > lastMaxSuit then true
        else false
      | _, _ => false
    else if lastPlayed.length = 5 then
      compareFiveCardCombinations cards lastPlayed
    else false

/-- `playSelectedCards` (GameContext.tsx 384–433).  On a failed validation
the selected cards are appended back to the end of `playerHand`, the
selection is cleared and an error message is set; nothing else changes.  On
success the cards are appended to the play area, filtered out of the acting
side's hand (JS `includes` compares object identity; dealt card records are
pairwise distinct, so structural equality is the same test), the turn flips
and the round flags are recomputed from the played size.  The hand-size
message test `hand.length - selected.length === 0` can go negative in JS,
hence `Int`. -/
def playSelectedCards (s : GameState) : GameState :=
  if s.selectedCards.length = 0 then s
  else if !s.roundReset && !isValidMove s s.selectedCards then
    { s with playerHand := s.playerHand ++ s.selectedCards,
             selectedCards := [],
             gameMessage := "Invalid move. Please try again." }
  else
    let s1 := { s with playArea := s.playArea ++ s.selectedCards }
    let s2 :=
      if s.currentPlayer = PlayerId.player then
        { s1 with
          playerHand :=
            s.playerHand.filter (fun c => !s.selectedCards.contains c),
          gameMessage :=
            if (s.playerHand.length : Int) - s.selectedCards.length = 0 then
              "Player has no more cards!"
            else "Player played. Computer's turn.",
          currentPlayer := PlayerId.computer }
      else
        { s1 with
          computerHand :=
            s.computerHand.filter (fun c => !s.selectedCards.contains c),
          gameMessage :=
            if (s.computerHand.length : Int) - s.selectedCards.length = 0 then
              "Computer has no more cards!"
            else "Computer played. Player's turn.",
          currentPlayer := PlayerId.player }
    { s2 with
      isDoublesRound := s.selectedCards.length == 2,
      isFiveCardRound := s.selectedCards.length == 5,
      lastMoveWasDouble := s.selectedCards.length == 2,
      lastMoveWasFiveCard := s.selectedCards.length == 5,
      selectedCards := [],
      roundReset := false }

/-- `drawCard` (GameContext.tsx 438–457).  The whole body is guarded by
`deckSize > 0`: with `deckSize = 0` nothing at all happens.  Otherwise one
card is popped off the end of the module-level `deck` array into the
current player's hand and the counter decrements; the turn flip, the flag
clears and the constraint lift run inside the same guard.  If the counter
is positive while the array is somehow empty, `pop()` yields `undefined`,
the hand/message/counter updates are skipped, and the turn still flips. -/
def drawCard (s : GameState) : GameState :=
  if s.deckSize > 0 then
    let s1 :=
      match s.deck.getLast? with
      | some newCard =>
        if s.currentPlayer = PlayerId.player then
          { s with deck := s.deck.dropLast,
                   playerHand := s.playerHand ++ [newCard],
                   gameMessage := "Player drew a card. Computer's turn.",
                   deckSize := s.deckSize - 1 }
        else
          { s with deck := s.deck.dropLast,
                   computerHand := s.computerHand ++ [newCard],
                   gameMessage := "Computer drew a card. Player's turn.",
                   deckSize := s.deckSize - 1 }
      | none => s
    { s1 with
      currentPlayer := otherPlayer s.currentPlayer,
      isDoublesRound := false,
      isFiveCardRound := false,
      roundReset := true }
  else s

end GameCtx

namespace AIStrategy

open GameRules

/-- `sortCards` from `src/app/lib/utils.ts`: ascending by rank value, then
suit value. -/
def sortCards (cards : List CardType) : List CardType := sortByKey sortKey cards

/-- The `type` argument of `findPlaysOfType`: a `Play['type']` or `'any'`. -/
inductive FindKind
  | ofPlay (t : PlayType)
  | anyKind
deriving DecidableEq, Repr

/-- JS `type === t || type === 'any'`. -/
def FindKind.covers : FindKind → PlayType → Bool
  | FindKind.anyKind, _ => true
  | FindKind.ofPlay t', t => t' == t

/-- First-occurrence deduplication: the iteration order of a JS object's
string keys (insertion order). -/
def dedupFirstAux (seen : List String) : List String → List String
  | [] => []
  | v :: l =>
    if seen.contains v then dedupFirstAux seen l
    else v :: dedupFirstAux (v :: seen) l

def dedupFirst (l : List String) : List String := dedupFirstAux [] l

/-- The `valueGroups` object of `findPlaysOfType` (AIGameStrategy.ts):
cards grouped by value string, groups in first-occurrence order, each group
in hand order. -/
def valueGroups (cards : List CardType) : List (String × List CardType) :=
  (dedupFirst (cards.map (fun c => c.value))).map
    (fun v => (v, cards.filter (fun c => c.value == v)))

/-- All `i < j` index pairs of a group, in the source's double-loop order. -/
def indexPairs {α : Type} : List α → List (α × α)
  | [] => []
  | c :: rest => (rest.map (fun d => (c, d))) ++ indexPairs rest

/-- All `i < j < k` index triples, in the source's triple-loop order. -/
def indexTriples {α : Type} : List α → List (α × α × α)
  | [] => []
  | c :: rest =>
    ((indexPairs rest).map (fun p => (c, p.1, p.2))) ++ indexTriples rest

/-- The window loop `for (i = 0; i <= uniqueRanks.length - 5; i++)
uniqueRanks.slice(i, i + 5)`. -/
def windows5 (l : List Nat) : List (List Nat) :=
  (List.range (l.length - 4)).map (fun i => (l.drop i).take 5)

/-- Per-rank pick of the straight construction: the hand's cards of that
rank sorted descending by suit value, first one.  Descending by suit value
is ascending by `5 - suit` (suit values are at most 4).  Empty when the
hand has no card of the rank. -/
def pickOfRank (sortedHand : List CardType) (rankValue : Nat) : List CardType :=
  match sortByKey (fun c => 5 - suitValues c.suit)
      (sortedHand.filter (fun c => cardValues c.value == rankValue)) with
  | [] => []
  | c :: _ => [c]

/-- The `straightCards` construction of `findPlaysOfType`: one
highest-suit card per rank of the candidate sequence. -/
def buildStraightCards (sortedHand : List CardType) (seq : List Nat) :
    List CardType :=
  seq.flatMap (pickOfRank sortedHand)

/-- One rank window of the straight search: if its 5 ranks are consecutive
or the (sorted) ace-low window 2,3,4,5,14, build the card set and keep the
classified play when it really is a 5-card straight. -/
def straightPlayOfSeq (sortedHand : List CardType) (seq : List Nat) :
    List Play :=
  if isConsecutive seq || (seq == [2, 3, 4, 5, 14]) then
    let straightCards := buildStraightCards sortedHand seq
    if straightCards.length = 5 then
      match getPlayInfo straightCards with
      | some playInfo =>
        if playInfo.type == PlayType.straight then [playInfo] else []
      | none => []
    else []
  else []

/-- JS duplicate test
`p.cards.map(c => c.id).sort().join(',') === straightCards.map(...).join(',')`:
equality of the canonical forms of the two id multisets.  (JS `sort()`
without comparator is lexicographic on the decimal strings; both sides are
canonicalised the same way, so the test is id-multiset equality, which the
numeric sort below decides equally.) -/
def sameIdSet (a b : List CardType) : Bool :=
  sortByKey (fun i => i) (a.map (fun c => c.id)) ==
    sortByKey (fun i => i) (b.map (fun c => c.id))

/-- `findPlaysOfType` (AIGameStrategy.ts): enumerate the hand's plays of
one type (or of every type for `anyKind`), in source order —
singles, pairs, straights (windows, then the extra ace-low sequence with
its duplicate check against all plays found so far), triple-plus-two
combinations padded with the two lowest remaining cards. -/
def findPlaysOfType (hand : List CardType) (k : FindKind) : List Play :=
  let sortedHand := sortCards hand
  let groups := valueGroups sortedHand
  let singles :=
    if k.covers PlayType.single then
      sortedHand.filterMap (fun c => getPlayInfo [c])
    else []
  let pairs :=
    if k.covers PlayType.pair then
      groups.flatMap (fun g =>
        if g.2.length ≥ 2 then
          (indexPairs g.2).filterMap (fun p => getPlayInfo [p.1, p.2])
        else [])
    else []
  let straights :=
    if k.covers PlayType.straight then
      let uniqueRanks :=
        sortByKey (fun r => r)
          ((sortedHand.map (fun c => cardValues c.value)).dedup)
      if uniqueRanks.length ≥ 5 then
        let windowPlays :=
          (windows5 uniqueRanks).flatMap (straightPlayOfSeq sortedHand)
        let playsSoFar := singles ++ pairs ++ windowPlays
        let aceLowPlays :=
          if uniqueRanks.contains 14 && uniqueRanks.contains 2 &&
              uniqueRanks.contains 3 && uniqueRanks.contains 4 &&
              uniqueRanks.contains 5 then
            let straightCards := buildStraightCards sortedHand [14, 2, 3, 4, 5]
            if straightCards.length = 5 then
              match getPlayInfo straightCards with
              | some playInfo =>
                if playInfo.type == PlayType.straight &&
                    !(playsSoFar.any (fun p => sameIdSet p.cards straightCards))
                then [playInfo]
                else []
              | none => []
            else []
          else []
        windowPlays ++ aceLowPlays
      else []
    else []
  let fullhouses :=
    if k.covers PlayType.fullhouse then
      groups.flatMap (fun g =>
        if g.2.length ≥ 3 then
          (indexTriples g.2).flatMap (fun t =>
            let tripleCards := [t.1, t.2.1, t.2.2]
            let remainingHand :=
              sortedHand.filter
                (fun c => !(tripleCards.any (fun tc => tc.id == c.id)))
            let sortedRemaining :=
              sortByKey (fun c => cardValues c.value) remainingHand
            if sortedRemaining.length ≥ 2 then
              let lowestCards := sortedRemaining.take 2
              match getPlayInfo (tripleCards ++ lowestCards) with
              | some playInfo =>
                if playInfo.type == PlayType.fullhouse then [playInfo] else []
              | none => []
            else [])
        else [])
    else []
  singles ++ pairs ++ straights ++ fullhouses

/-- The `typeOrder` table of `chooseBestPlay`'s candidate sort:
straight/fullhouse 1, pair 2, single 3, anything else (`|| 99`) 99. -/
def typeOrder : PlayType → Nat
  | PlayType.straight => 1
  | PlayType.fullhouse => 1
  | PlayType.pair => 2
  | PlayType.single => 3
  | _ => 99

/-- Key of the candidate sort in `chooseBestPlay`: ascending
lexicographically by (typeOrder, rankValue, highestSuitValue || 0).  Every
play `getPlayInfo` produces has rankValue ≤ 14 and suit value ≤ 4, so on
the lists actually sorted this decimal packing realises exactly that
comparator. -/
def playSortKey (p : Play) : Nat :=
  typeOrder p.type * 10000 + p.rankValue * 100 + p.highestSuitValue.getD 0

/-- The optional `gameState` argument of `chooseBestPlay`; both fields are
optional in the TS type. -/
structure GameStateInfo where
  playAreaLength : Option Nat := none
  opponentCardCount : Option Nat := none
deriving DecidableEq, Repr

/-- `chooseBestPlay` (AIGameStrategy.ts).  `gameState = none` models the
`null` default; `coin` models the outcome of `Math.random() >= 0.5` in the
4-or-5-opponent-cards defensive branch.  The selection only indexes
positions that exist; the fallback argument of `getD`/`getLastD` is the
(already extracted) first element and is never the result of an
out-of-range read. -/
def chooseBestPlay (hand : List CardType) (lastPlay : Option Play)
    (gameState : Option GameStateInfo) (coin : Bool) : Option Play :=
  let isGameStart :=
    lastPlay.isNone &&
      (match gameState with
       | some g => g.playAreaLength == some 0
       | none => true)
  let isLeading := lastPlay.isNone
  let possiblePlays :=
    if isGameStart then findPlaysOfType hand (FindKind.ofPlay PlayType.single)
    else if isLeading then findPlaysOfType hand FindKind.anyKind
    else
      match lastPlay with
      | some lp =>
        (findPlaysOfType hand (FindKind.ofPlay lp.type)).filter
          (fun play => GameRules.isValidMove play.cards lp.cards)
      | none => []
  if possiblePlays.length = 0 then none
  else
    match sortByKey playSortKey possiblePlays with
    | [] => none
    | first :: rest =>
      let sorted := first :: rest
      let chosen :=
        match gameState with
        | some g =>
          match g.opponentCardCount with
          | some opponentCards =>
            if opponentCards ≤ 3 then sorted.getLastD first
            else if opponentCards ≤ 5 then
              if coin then
                if sorted.length ≥ 2 then sorted.getD (sorted.length - 2) first
                else sorted.getLastD first
              else first
            else first
          | none => first
        | none => first
      some chosen

end AIStrategy

/-- Observable part of a classification result: type, rank key and
tiebreak suit — everything except the member-card list. -/
def playObs : Option GameRules.Play → Option (GameRules.PlayType × Nat × Option Nat) :=
  Option.map (fun p => (p.type, p.rankValue, p.highestSuitValue))

/-- Card literal helper for the concrete scenarios below. -/
def card (id : Nat) (v s : String) : CardType := { id := id, value := v, suit := s }

/-- Concrete low-ace straight 2♣ 3♣ 4♣ 5♣ A♣. -/
def lowAceStraight : List CardType :=
  [card 1 "2" "♣", card 2 "3" "♣", card 3 "4" "♣", card 4 "5" "♣", card 5 "A" "♣"]

/-- Concrete six-high straight 2♠ 3♠ 4♠ 5♠ 6♠. -/
def sixHighStraight : List CardType :=
  [card 6 "2" "♠", card 7 "3" "♠", card 8 "4" "♠", card 9 "5" "♠", card 10 "6" "♠"]

/-- Mid-round game state: a single 4♠ on the table, and a two-card
non-pair selection — a play attempt that fails validation. -/
def invalidAttemptState : GameCtx.GameState :=
  { playerHand := [card 1 "9" "♠"],
    computerHand := [card 9 "K" "♦"],
    playArea := [card 0 "4" "♠"],
    selectedCards := [card 2 "5" "♠", card 3 "7" "♣"],
    currentPlayer := GameCtx.PlayerId.player,
    deck := [],
    deckSize := 0,
    gameMessage := "",
    isDoublesRound := false,
    isFiveCardRound := false,
    lastMoveWasDouble := false,
    lastMoveWasFiveCard := false,
    roundReset := false }

/-- Mid-round game state with an empty deck on the computer's turn. -/
def emptyDeckState : GameCtx.GameState :=
  { playerHand := [card 1 "9" "♠"],
    computerHand := [card 9 "K" "♦"],
    playArea := [card 0 "4" "♠"],
    selectedCards := [],
    currentPlayer := GameCtx.PlayerId.computer,
    deck := [],
    deckSize := 0,
    gameMessage := "",
    isDoublesRound := false,
    isFiveCardRound := false,
    lastMoveWasDouble := false,
    lastMoveWasFiveCard := false,
    roundReset := false }

/-- Start-of-game state (empty table, no flags, no prior draw) with a pair
selected as the game's very first play. -/
def firstPlayPairState : GameCtx.GameState :=
  { playerHand := [card 1 "9" "♠"],
    computerHand := [card 9 "K" "♦"],
    playArea := [],
    selectedCards := [card 2 "5" "♠", card 3 "5" "♣"],
    currentPlayer := GameCtx.PlayerId.player,
    deck := [card 20 "Q" "♦"],
    deckSize := 1,
    gameMessage := "",
    isDoublesRound := false,
    isFiveCardRound := false,
    lastMoveWasDouble := false,
    lastMoveWasFiveCard := false,
    roundReset := false }

/-- AI hand 3♠ 4♠ 5♠ 6♠ 7♠: exactly a legal straight, no triple. -/
def straightOnlyHand : List CardType :=
  [card 1 "3" "♠", card 2 "4" "♠", card 3 "5" "♠", card 4 "6" "♠", card 5 "7" "♠"]

/-- Required play on the table: a K-high triple-plus-two. -/
def kingFullhousePlay : GameRules.Play :=
  { type := GameRules.PlayType.fullhouse,
    cards := [card 11 "K" "♠", card 12 "K" "♣", card 13 "K" "♥",
              card 14 "2" "♠", card 15 "3" "♣"],
    rankValue := 13,
    highestSuitValue := none }

/-- AI hand K♠ K♣ K♥ 2♠ 3♣, holding a triple-plus-two. -/
def kingTripleHand : List CardType :=
  [card 1 "K" "♠", card 2 "K" "♣", card 3 "K" "♥", card 4 "2" "♠", card 5 "3" "♣"]

/-- Required play: a 5-high triple-plus-two. -/
def fiveFullhousePlay : GameRules.Play :=
  { type := GameRules.PlayType.fullhouse,
    cards := [card 11 "5" "♠", card 12 "5" "♣", card 13 "5" "♥",
              card 14 "2" "♦", card 15 "3" "♦"],
    rankValue := 5,
    highestSuitValue := none }

/-- The play `chooseBestPlay` picks from `kingTripleHand` against
`fiveFullhousePlay`: the K triple padded with the two low cards. -/
def kingFullhouseChoice : GameRules.Play :=
  { type := GameRules.PlayType.fullhouse,
    cards := [card 4 "2" "♠", card 5 "3" "♣", card 1 "K" "♠",
              card 2 "K" "♣", card 3 "K" "♥"],
    rankValue := 13,
    highestSuitValue := none }

/-!  Infrastructure lemmas about the embedding primitives. -/

theorem cardValues_le (v : String) : cardValues v ≤ 14 := by
  unfold cardValues; split <;> omega

theorem suitValues_le (s : String) : suitValues s ≤ 4 := by
  unfold suitValues; split <;> omega

theorem sortKey_div (c : CardType) : sortKey c / 100 = cardValues c.value := by
  have := suitValues_le c.suit
  unfold sortKey; omega

theorem sortKey_mod (c : CardType) : sortKey c % 100 = suitValues c.suit := by
  have := suitValues_le c.suit
  unfold sortKey; omega

theorem sortKey_le (c : CardType) : sortKey c ≤ 1404 := by
  have h1 := cardValues_le c.value
  have h2 := suitValues_le c.suit
  unfold sortKey; omega

theorem insertByKey_perm {α : Type} (k : α → Nat) (a : α) (l : List α) :
    (insertByKey k a l).Perm (a :: l) := by
  induction l with
  | nil => exact List.Perm.refl _
  | cons b l ih =>
    unfold insertByKey
    split
    · exact List.Perm.refl _
    · exact (ih.cons b).trans (List.Perm.swap a b l)

theorem sortByKey_perm {α : Type} (k : α → Nat) (l : List α) :
    (sortByKey k l).Perm l := by
  induction l with
  | nil => exact List.Perm.refl _
  | cons a l ih => exact (insertByKey_perm k a (sortByKey k l)).trans (ih.cons a)

theorem sortByKey_length {α : Type} (k : α → Nat) (l : List α) :
    (sortByKey k l).length = l.length :=
  (sortByKey_perm k l).length_eq

theorem pairwise_insertByKey {α : Type} (k : α → Nat) (a : α) {l : List α}
    (h : l.Pairwise (fun x y => k x ≤ k y)) :
    (insertByKey k a l).Pairwise (fun x y => k x ≤ k y) := by
  induction l with
  | nil => simp [insertByKey]
  | cons b l ih =>
    rw [List.pairwise_cons] at h
    unfold insertByKey
    split
    next hab =>
      rw [List.pairwise_cons]
      refine ⟨?_, List.pairwise_cons.2 h⟩
      intro x hx
      rcases List.mem_cons.1 hx with rfl | hx
      · exact hab
      · exact Nat.le_trans hab (h.1 x hx)
    next hab =>
      have hba : k b ≤ k a := Nat.le_of_lt (Nat.lt_of_not_le hab)
      rw [List.pairwise_cons]
      refine ⟨?_, ih h.2⟩
      intro x hx
      rcases List.mem_cons.1 (((insertByKey_perm k a l).mem_iff).1 hx) with rfl | hx
      · exact hba
      · exact h.1 x hx

theorem pairwise_sortByKey {α : Type} (k : α → Nat) (l : List α) :
    (sortByKey k l).Pairwise (fun x y => k x ≤ k y) := by
  induction l with
  | nil => simp [sortByKey]
  | cons a l ih => exact pairwise_insertByKey k a ih

theorem map_sortByKey_sorted {α : Type} (k : α → Nat) (l : List α) :
    List.Sorted (· ≤ ·) ((sortByKey k l).map k) :=
  List.Pairwise.map k (fun _ _ h => h) (pairwise_sortByKey k l)

/-- Two permutations of the same cards have identical key sequences after
sorting: the sorted key list is determined by the key multiset. -/
theorem map_sortByKey_eq_of_perm {α : Type} (k : α → Nat) {l₁ l₂ : List α}
    (h : l₁.Perm l₂) :
    (sortByKey k l₁).map k = (sortByKey k l₂).map k :=
  List.eq_of_perm_of_sorted
    (((sortByKey_perm k l₁).map k).trans ((h.map k).trans
      (((sortByKey_perm k l₂).map k).symm)))
    (map_sortByKey_sorted k l₁) (map_sortByKey_sorted k l₂)

theorem getLastD_map {α β : Type} (f : α → β) (l : List α) (d : α) :
    (l.map f).getLastD (f d) = f (l.getLastD d) := by
  induction l generalizing d with
  | nil => rfl
  | cons a l ih =>
    rw [List.map_cons, List.getLastD_cons, List.getLastD_cons, ih a]

theorem getLastD_mem {α : Type} {l : List α} (h : l ≠ []) (d : α) :
    l.getLastD d ∈ l := by
  induction l generalizing d with
  | nil => exact absurd rfl h
  | cons a l ih =>
    rw [List.getLastD_cons]
    cases l with
    | nil => simp
    | cons b t => exact List.mem_cons_of_mem a (ih (by simp) a)

theorem getD_mem {α : Type} {l : List α} {i : Nat} (h : i < l.length) (d : α) :
    l.getD i d ∈ l := by
  induction l generalizing i with
  | nil => simp at h
  | cons a l ih =>
    cases i with
    | zero => simp
    | succ j =>
      simp only [List.getD_cons_succ]
      exact List.mem_cons_of_mem a (ih (by simpa using h))

/-!  Lemmas about the GameRules classifier and comparators. -/

namespace GameRules

theorem ivt_length {cards : List CardType}
    (h : isValidTriplePlusTwo cards = true) : cards.length = 5 := by
  unfold isValidTriplePlusTwo at h
  split at h
  · simp at h
  · next hn => omega

theorem ivt_exists {cards : List CardType}
    (h : isValidTriplePlusTwo cards = true) :
    ∃ v ∈ cards.map (fun c => c.value),
      (cards.map (fun c => c.value)).count v = 3 := by
  unfold isValidTriplePlusTwo at h
  split at h
  · simp at h
  · rcases List.any_eq_true.1 h with ⟨v, hv, hc⟩
    exact ⟨v, hv, beq_iff_eq.1 hc⟩

/-- A hand with a tripled value has at most 3 distinct value strings, so it
cannot have 5 distinct rank values: the straight predicate fails. -/
theorem not_straight_of_triplePlusTwo {cards : List CardType}
    (h : isValidTriplePlusTwo cards = true) :
    isValidStraight cards = false := by
  have hlen : cards.length = 5 := ivt_length h
  obtain ⟨v, _, hcount⟩ := ivt_exists h
  have hnotnodup : ¬ (cards.map (fun c => cardValues c.value)).Nodup := by
    intro hnd
    have hvals : (cards.map (fun c => c.value)).Nodup := by
      have : cards.map (fun c => cardValues c.value) =
          (cards.map (fun c => c.value)).map cardValues := by
        simp [List.map_map]
      exact List.Nodup.of_map cardValues (this ▸ hnd)
    have := List.nodup_iff_count_le_one.1 hvals v
    omega
  have hd : (cards.map (fun c => cardValues c.value)).dedup.length < 5 := by
    by_contra hge
    push_neg at hge
    have hsub := List.dedup_sublist (cards.map (fun c => cardValues c.value))
    have hlen2 : (cards.map (fun c => cardValues c.value)).length = 5 := by
      simp [hlen]
    have hle : (cards.map (fun c => cardValues c.value)).dedup.length ≤ 5 := by
      have := hsub.length_le
      omega
    have heq := hsub.eq_of_length (by omega)
    exact hnotnodup (heq ▸ List.nodup_dedup _)
  have hur : (uniqueSortedRanks cards).length < 5 := by
    unfold uniqueSortedRanks
    rw [sortByKey_length]
    exact hd
  unfold isValidStraight
  rw [if_neg (by omega : ¬ cards.length ≠ 5)]
  simp only [if_pos hur]
  simp [Nat.ne_of_lt hur]

theorem uniqueSortedRanks_eq_of_perm {l₁ l₂ : List CardType} (h : l₁.Perm l₂) :
    uniqueSortedRanks l₁ = uniqueSortedRanks l₂ := by
  unfold uniqueSortedRanks
  have hperm : ((l₁.map (fun c => cardValues c.value)).dedup).Perm
      ((l₂.map (fun c => cardValues c.value)).dedup) :=
    (h.map (fun c => cardValues c.value)).dedup
  have := map_sortByKey_eq_of_perm (fun r => r) hperm
  simpa [List.map_id'] using this

theorem isValidStraight_perm {l₁ l₂ : List CardType} (h : l₁.Perm l₂) :
    isValidStraight l₁ = isValidStraight l₂ := by
  unfold isValidStraight
  rw [h.length_eq, uniqueSortedRanks_eq_of_perm h]

theorem isValidTriplePlusTwo_perm {l₁ l₂ : List CardType} (h : l₁.Perm l₂) :
    isValidTriplePlusTwo l₁ = isValidTriplePlusTwo l₂ := by
  unfold isValidTriplePlusTwo
  rw [h.length_eq]
  by_cases h5 : l₂.length ≠ 5
  · rw [if_pos h5, if_pos h5]
  · rw [if_neg h5, if_neg h5]
    have hm : (l₁.map (fun c => c.value)).Perm (l₂.map (fun c => c.value)) :=
      h.map _
    rw [Bool.eq_iff_iff, List.any_eq_true, List.any_eq_true]
    constructor
    · rintro ⟨v, hv, hc⟩
      refine ⟨v, hm.mem_iff.1 hv, ?_⟩
      rwa [← hm.count_eq v]
    · rintro ⟨v, hv, hc⟩
      refine ⟨v, hm.mem_iff.2 hv, ?_⟩
      rwa [hm.count_eq v]

/-- Among 5 cards at most one value string occurs exactly 3 times. -/
theorem count3_unique {u : List String} (hlen : u.length = 5)
    {v v' : String} (hv : u.count v = 3) (hv' : u.count v' = 3) : v = v' := by
  by_contra hne
  have h1 : u.count v' ≤ u.countP (fun x => decide ¬((x == v) = true)) := by
    have : u.count v' = u.countP (fun x => x == v') := rfl
    rw [this]
    apply List.countP_mono_left
    intro x _ hx
    have hxv : x = v' := by simpa using hx
    subst hxv
    simpa using fun hcontra => hne (hcontra.symm)
  have h2 := List.length_eq_countP_add_countP (fun x => x == v) u
  have h3 : u.count v = u.countP (fun x => x == v) := rfl
  omega

/-- The first value string tripled among 5 cards is order-independent:
there is only one candidate. -/
theorem find_count3_eq_of_perm {u w : List String} (h : u.Perm w)
    (hlen : u.length = 5) :
    u.find? (fun v => u.count v == 3) = w.find? (fun v => w.count v == 3) := by
  have hcnt : ∀ v, u.count v = w.count v := fun v => h.count_eq v
  cases hu : u.find? (fun v => u.count v == 3) with
  | none =>
    rw [List.find?_eq_none] at hu
    symm
    rw [List.find?_eq_none]
    intro x hx hcontra
    exact hu x (h.mem_iff.2 hx) (by rwa [hcnt x])
  | some v =>
    have pv := List.find?_some hu
    have hvmem : v ∈ u := List.mem_of_find?_eq_some hu
    have hv3 : u.count v = 3 := by simpa using pv
    have hsome : (w.find? (fun x => w.count x == 3)).isSome := by
      rw [List.find?_isSome]
      refine ⟨v, h.mem_iff.1 hvmem, ?_⟩
      simp [← hcnt v, hv3]
    obtain ⟨v', hv'⟩ := Option.isSome_iff_exists.1 hsome
    have pv' := List.find?_some hv'
    have hv'3 : u.count v' = 3 := by
      rw [hcnt v']
      simpa using pv'
    rw [hv', count3_unique hlen hv3 hv'3]

theorem getTripleValue_perm {l₁ l₂ : List CardType} (h : l₁.Perm l₂)
    (hlen : l₁.length = 5) : getTripleValue l₁ = getTripleValue l₂ := by
  simp only [getTripleValue]
  rw [find_count3_eq_of_perm (h.map (fun c => c.value)) (by simp [hlen])]

theorem getPlayInfo_fullhouse_ivt {cards : List CardType} {p : Play}
    (hp : getPlayInfo cards = some p) (ht : p.type = PlayType.fullhouse) :
    isValidTriplePlusTwo cards = true := by
  have hperm := sortByKey_perm sortKey cards
  rw [← isValidTriplePlusTwo_perm hperm]
  simp only [getPlayInfo] at hp
  split at hp
  · simp at hp
  · split at hp
    · rw [Option.some.injEq] at hp
      rw [← hp] at ht
      simp at ht
    · split at hp
      · split at hp
        · split at hp
          · rw [Option.some.injEq] at hp
            rw [← hp] at ht
            simp at ht
          · simp at hp
        · simp at hp
      · split at hp
        · split at hp
          · split at hp
            · rw [Option.some.injEq] at hp
              rw [← hp] at ht
              simp at ht
            · simp at hp
          · simp at hp
        · split at hp
          · split at hp
            · rw [Option.some.injEq] at hp
              rw [← hp] at ht
              simp at ht
            · split at hp
              · next hivt => exact hivt
              · simp at hp
          · simp at hp

theorem getPlayInfo_straight_ivs {cards : List CardType} {p : Play}
    (hp : getPlayInfo cards = some p) (ht : p.type = PlayType.straight) :
    isValidStraight cards = true := by
  have hperm := sortByKey_perm sortKey cards
  rw [← isValidStraight_perm hperm]
  simp only [getPlayInfo] at hp
  split at hp
  · simp at hp
  · split at hp
    · rw [Option.some.injEq] at hp
      rw [← hp] at ht
      simp at ht
    · split at hp
      · split at hp
        · split at hp
          · rw [Option.some.injEq] at hp
            rw [← hp] at ht
            simp at ht
          · simp at hp
        · simp at hp
      · split at hp
        · split at hp
          · split at hp
            · rw [Option.some.injEq] at hp
              rw [← hp] at ht
              simp at ht
            · simp at hp
          · simp at hp
        · split at hp
          · split at hp
            · next hs => exact hs
            · split at hp
              · rw [Option.some.injEq] at hp
                rw [← hp] at ht
                simp at ht
              · simp at hp
          · simp at hp

end GameRules

/-!  Claim theorems. -/

/-- C5: for every pair of legal 5-card hands, a Straight challenger beats a
TriplePlusTwo incumbent and a TriplePlusTwo challenger loses to a Straight
incumbent, regardless of either hand's rank key
(`compareFiveCardCombinations` decides the cross-kind case purely from the
two straight checks). -/
theorem claim_C5_straight_beats_triple_plus_two (n l : List CardType)
    (hn : GameRules.isValidStraight n = true)
    (hl : GameRules.isValidTriplePlusTwo l = true) :
    GameRules.compareFiveCardCombinations n l = true ∧
    GameRules.compareFiveCardCombinations l n = false := by
  have hl' := GameRules.not_straight_of_triplePlusTwo hl
  refine ⟨?_, ?_⟩ <;>
    · simp only [GameRules.compareFiveCardCombinations]
      rw [hn, hl']
      simp

theorem claim_C5_witness :
    GameRules.compareFiveCardCombinations sixHighStraight
      kingFullhousePlay.cards = true ∧
    GameRules.compareFiveCardCombinations kingFullhousePlay.cards
      sixHighStraight = false :=
  claim_C5_straight_beats_triple_plus_two sixHighStraight
    kingFullhousePlay.cards (by decide) (by decide)

/-- C8: for every 5-card set, the straight predicate and the
triple-plus-two predicate never both hold, and a set `getPlayInfo`
classifies as TriplePlusTwo (resp. Straight) does not satisfy the straight
(resp. triple-plus-two) predicate. -/
theorem claim_C8_classification_mutually_exclusive (cards : List CardType) :
    (GameRules.isValidStraight cards &&
      GameRules.isValidTriplePlusTwo cards) = false ∧
    (∀ p : GameRules.Play, GameRules.getPlayInfo cards = some p →
      (p.type = GameRules.PlayType.fullhouse →
        GameRules.isValidStraight cards = false) ∧
      (p.type = GameRules.PlayType.straight →
        GameRules.isValidTriplePlusTwo cards = false)) := by
  have hx : (GameRules.isValidStraight cards &&
      GameRules.isValidTriplePlusTwo cards) = false := by
    cases hivt : GameRules.isValidTriplePlusTwo cards
    · simp
    · simp [GameRules.not_straight_of_triplePlusTwo hivt]
  refine ⟨hx, ?_⟩
  intro p hp
  constructor
  · intro ht
    have hivt := GameRules.getPlayInfo_fullhouse_ivt hp ht
    cases hivs : GameRules.isValidStraight cards
    · rfl
    · rw [hivs, hivt] at hx
      simp at hx
  · intro ht
    have hivs := GameRules.getPlayInfo_straight_ivs hp ht
    cases hivt : GameRules.isValidTriplePlusTwo cards
    · rfl
    · rw [hivs, hivt] at hx
      simp at hx

theorem claim_C8_witness : GameRules.isValidStraight kingTripleHand = false :=
  ((claim_C8_classification_mutually_exclusive kingTripleHand).2
    kingFullhouseChoice (by decide)).1 rfl

/-- C10: `isValidMove` of GameRules.ts is total and returns `false` for
every pair of card lists whose lengths are not an equal pair drawn from
1, 2 or 5 — empty, 3-card, 4-card and size-mismatched challengers are all
reported as not beating the incumbent. -/
theorem claim_C10_isValidMove_false_on_size_mismatch (a b : List CardType)
    (h : ¬ (a.length = b.length ∧
      (a.length = 1 ∨ a.length = 2 ∨ a.length = 5))) :
    GameRules.isValidMove a b = false := by
  unfold GameRules.isValidMove
  split_ifs with h1 h2 h3 h4
  · rfl
  · exact absurd ⟨h2.1.trans h2.2.symm, Or.inl h2.1⟩ h
  · exact absurd ⟨h3.1.trans h3.2.symm, Or.inr (Or.inl h3.1)⟩ h
  · exact absurd ⟨h4.1.trans h4.2.symm, Or.inr (Or.inr h4.1)⟩ h
  · rfl

theorem claim_C10_witness :
    GameRules.isValidMove [card 1 "5" "♠"]
      [card 2 "5" "♣", card 3 "5" "♦"] = false :=
  claim_C10_isValidMove_false_on_size_mismatch _ _ (by decide)

/-- C7: for valid classified plays of the same non-5-card kind (two singles
or two pairs) with equal rank key and distinct tiebreak suit, exactly one
direction of `isValidMove` holds — the comparison is antisymmetric with no
ties (`x = !y` states "exactly one of x, y"). -/
theorem claim_C7_same_kind_comparison_antisymmetric :
    (∀ a b : CardType, cardValues a.value = cardValues b.value →
      suitValues a.suit ≠ suitValues b.suit →
      GameRules.isValidMove [a] [b] = !(GameRules.isValidMove [b] [a])) ∧
    (∀ a1 a2 b1 b2 : CardType, a1.value = a2.value → b1.value = b2.value →
      cardValues a1.value = cardValues b1.value →
      max (suitValues a1.suit) (suitValues a2.suit) ≠
        max (suitValues b1.suit) (suitValues b2.suit) →
      GameRules.isValidMove [a1, a2] [b1, b2] =
        !(GameRules.isValidMove [b1, b2] [a1, a2])) := by
  constructor
  · intro a b hr hs
    show (if cardValues a.value > cardValues b.value then true
          else if cardValues a.value = cardValues b.value then
            decide (suitValues a.suit > suitValues b.suit)
          else false) =
      !(if cardValues b.value > cardValues a.value then true
        else if cardValues b.value = cardValues a.value then
          decide (suitValues b.suit > suitValues a.suit)
        else false)
    rw [hr, if_neg (lt_irrefl _), if_pos rfl, if_neg (lt_irrefl _), if_pos rfl]
    by_cases hlt : suitValues b.suit < suitValues a.suit
    · simp [hlt, Nat.lt_asymm hlt]
    · have h2 : suitValues a.suit < suitValues b.suit := by omega
      simp [h2, Nat.lt_asymm h2]
  · intro a1 a2 b1 b2 ha hb hr hs
    show (if a1.value ≠ a2.value ∨ b1.value ≠ b2.value then false
          else if cardValues a1.value > cardValues b1.value then true
          else if cardValues a1.value = cardValues b1.value then
            decide (max (suitValues a1.suit) (suitValues a2.suit) >
              max (suitValues b1.suit) (suitValues b2.suit))
          else false) =
      !(if b1.value ≠ b2.value ∨ a1.value ≠ a2.value then false
        else if cardValues b1.value > cardValues a1.value then true
        else if cardValues b1.value = cardValues a1.value then
          decide (max (suitValues b1.suit) (suitValues b2.suit) >
            max (suitValues a1.suit) (suitValues a2.suit))
        else false)
    have g1 : ¬(a1.value ≠ a2.value ∨ b1.value ≠ b2.value) := by simp [ha, hb]
    have g2 : ¬(b1.value ≠ b2.value ∨ a1.value ≠ a2.value) := by simp [ha, hb]
    rw [if_neg g1, if_neg g2, hr]
    rw [if_neg (lt_irrefl _), if_pos rfl, if_neg (lt_irrefl _), if_pos rfl]
    by_cases hlt : max (suitValues b1.suit) (suitValues b2.suit) <
        max (suitValues a1.suit) (suitValues a2.suit)
    · simp [hlt, Nat.lt_asymm hlt]
    · have h2 : max (suitValues a1.suit) (suitValues a2.suit) <
          max (suitValues b1.suit) (suitValues b2.suit) := by omega
      simp [h2, Nat.lt_asymm h2]

theorem claim_C7_witness :
    GameRules.isValidMove [card 1 "5" "♥"] [card 2 "5" "♠"] =
      !(GameRules.isValidMove [card 2 "5" "♠"] [card 1 "5" "♥"]) ∧
    GameRules.isValidMove [card 3 "7" "♦", card 4 "7" "♥"]
        [card 5 "7" "♠", card 6 "7" "♣"] =
      !(GameRules.isValidMove [card 5 "7" "♠", card 6 "7" "♣"]
          [card 3 "7" "♦", card 4 "7" "♥"]) :=
  ⟨claim_C7_same_kind_comparison_antisymmetric.1 _ _ rfl (by decide),
   claim_C7_same_kind_comparison_antisymmetric.2 _ _ _ _ rfl rfl rfl (by decide)⟩

/-- C4: in the game's initial round state (empty table, no round flags, no
prior draw) any 2-card or 5-card selection fails validation and
`playSelectedCards` rejects it — table and turn unchanged, error message
reported.  Only a single can open the game. -/
theorem claim_C4_first_play_must_be_single (s : GameCtx.GameState)
    (hArea : s.playArea = [])
    (hD : s.lastMoveWasDouble = false)
    (hF : s.lastMoveWasFiveCard = false)
    (hR : s.roundReset = false)
    (hlen : s.selectedCards.length = 2 ∨ s.selectedCards.length = 5) :
    GameCtx.isValidMove s s.selectedCards = false ∧
    (GameCtx.playSelectedCards s).playArea = s.playArea ∧
    (GameCtx.playSelectedCards s).currentPlayer = s.currentPlayer ∧
    (GameCtx.playSelectedCards s).gameMessage =
      "Invalid move. Please try again." := by
  have hinv : GameCtx.isValidMove s s.selectedCards = false := by
    unfold GameCtx.isValidMove
    rw [if_neg (by omega : ¬ s.selectedCards.length = 0)]
    rw [if_pos ?cond]
    case cond =>
      rw [hR, hD, hF]
      simp only [Bool.not_false, Bool.false_and, Bool.false_or, Bool.true_and,
        Bool.and_eq_true, bne_iff_ne]
      omega
  have h0 : ¬ s.selectedCards.length = 0 := by omega
  have hcond : (!s.roundReset && !GameCtx.isValidMove s s.selectedCards) = true := by
    rw [hR, hinv]
    rfl
  refine ⟨hinv, ?_, ?_, ?_⟩ <;>
    · unfold GameCtx.playSelectedCards
      rw [if_neg h0, if_pos hcond]

theorem claim_C4_witness :
    GameCtx.isValidMove firstPlayPairState firstPlayPairState.selectedCards
      = false ∧
    (GameCtx.playSelectedCards firstPlayPairState).playArea =
      firstPlayPairState.playArea ∧
    (GameCtx.playSelectedCards firstPlayPairState).currentPlayer =
      firstPlayPairState.currentPlayer ∧
    (GameCtx.playSelectedCards firstPlayPairState).gameMessage =
      "Invalid move. Please try again." :=
  claim_C4_first_play_must_be_single firstPlayPairState rfl rfl rfl rfl
    (Or.inl rfl)

/-- C1 (amended): a play attempt that fails validation leaves the table
history, the current player, the round/required-kind flags, the computer's
hand, the deck and its counter unchanged, clears the selection and reports
the error message — but it appends the rejected cards back to the end of
`playerHand`: the combined list `playerHand ++ selectedCards` is preserved
exactly, while the hand variable itself gains the rejected cards at its
end (so the hand, selected cards included, is preserved only up to this
relocation, not byte-for-byte in place). -/
theorem claim_C1_amended_rejection_frame (s : GameCtx.GameState)
    (hR : s.roundReset = false)
    (hne : s.selectedCards ≠ [])
    (hinv : GameCtx.isValidMove s s.selectedCards = false) :
    (GameCtx.playSelectedCards s).playArea = s.playArea ∧
    (GameCtx.playSelectedCards s).currentPlayer = s.currentPlayer ∧
    (GameCtx.playSelectedCards s).lastMoveWasDouble = s.lastMoveWasDouble ∧
    (GameCtx.playSelectedCards s).lastMoveWasFiveCard = s.lastMoveWasFiveCard ∧
    (GameCtx.playSelectedCards s).isDoublesRound = s.isDoublesRound ∧
    (GameCtx.playSelectedCards s).isFiveCardRound = s.isFiveCardRound ∧
    (GameCtx.playSelectedCards s).roundReset = s.roundReset ∧
    (GameCtx.playSelectedCards s).computerHand = s.computerHand ∧
    (GameCtx.playSelectedCards s).deck = s.deck ∧
    (GameCtx.playSelectedCards s).deckSize = s.deckSize ∧
    (GameCtx.playSelectedCards s).playerHand =
      s.playerHand ++ s.selectedCards ∧
    (GameCtx.playSelectedCards s).selectedCards = [] ∧
    (GameCtx.playSelectedCards s).gameMessage =
      "Invalid move. Please try again." := by
  have h0 : ¬ s.selectedCards.length = 0 := by
    simpa [List.length_eq_zero] using hne
  have hcond :
      (!s.roundReset && !GameCtx.isValidMove s s.selectedCards) = true := by
    rw [hR, hinv]
    rfl
  unfold GameCtx.playSelectedCards
  rw [if_neg h0, if_pos hcond]
  exact ⟨rfl, rfl, rfl, rfl, rfl, rfl, rfl, rfl, rfl, rfl, rfl, rfl, rfl⟩

/-- C1 (counterexample): at `invalidAttemptState` the attempt fails
validation with `roundReset` false, yet the player's hand after
`playSelectedCards` is not the hand before — the claim's
"hand byte-for-byte unchanged" fails. -/
theorem claim_C1_counterexample :
    GameCtx.isValidMove invalidAttemptState
      invalidAttemptState.selectedCards = false ∧
    invalidAttemptState.roundReset = false ∧
    (GameCtx.playSelectedCards invalidAttemptState).playerHand ≠
      invalidAttemptState.playerHand := by
  decide

theorem claim_C1_witness :
    (GameCtx.playSelectedCards invalidAttemptState).playArea =
      invalidAttemptState.playArea ∧
    (GameCtx.playSelectedCards invalidAttemptState).currentPlayer =
      invalidAttemptState.currentPlayer ∧
    (GameCtx.playSelectedCards invalidAttemptState).lastMoveWasDouble =
      invalidAttemptState.lastMoveWasDouble ∧
    (GameCtx.playSelectedCards invalidAttemptState).lastMoveWasFiveCard =
      invalidAttemptState.lastMoveWasFiveCard ∧
    (GameCtx.playSelectedCards invalidAttemptState).isDoublesRound =
      invalidAttemptState.isDoublesRound ∧
    (GameCtx.playSelectedCards invalidAttemptState).isFiveCardRound =
      invalidAttemptState.isFiveCardRound ∧
    (GameCtx.playSelectedCards invalidAttemptState).roundReset =
      invalidAttemptState.roundReset ∧
    (GameCtx.playSelectedCards invalidAttemptState).computerHand =
      invalidAttemptState.computerHand ∧
    (GameCtx.playSelectedCards invalidAttemptState).deck =
      invalidAttemptState.deck ∧
    (GameCtx.playSelectedCards invalidAttemptState).deckSize =
      invalidAttemptState.deckSize ∧
    (GameCtx.playSelectedCards invalidAttemptState).playerHand =
      invalidAttemptState.playerHand ++ invalidAttemptState.selectedCards ∧
    (GameCtx.playSelectedCards invalidAttemptState).selectedCards = [] ∧
    (GameCtx.playSelectedCards invalidAttemptState).gameMessage =
      "Invalid move. Please try again." :=
  claim_C1_amended_rejection_frame invalidAttemptState rfl (by decide)
    (by decide)

/-- C2 (amended): when the deck counter is 0 the entire body of `drawCard`
is skipped — the draw is a complete no-op, with no turn flip and no
constraint lift; the pass transition exists only while `deckSize > 0`. -/
theorem claim_C2_amended_empty_deck_draw_noop (s : GameCtx.GameState)
    (h : s.deckSize = 0) : GameCtx.drawCard s = s := by
  unfold GameCtx.drawCard
  rw [if_neg (by omega)]

/-- C2 (counterexample): at `emptyDeckState` (empty deck, computer to act)
`drawCard` neither flips `currentPlayer` nor sets `roundReset` — the
claimed empty-deck "pass" transition does not happen. -/
theorem claim_C2_counterexample :
    emptyDeckState.deckSize = 0 ∧
    (GameCtx.drawCard emptyDeckState).currentPlayer =
      emptyDeckState.currentPlayer ∧
    (GameCtx.drawCard emptyDeckState).roundReset = false := by
  decide

theorem claim_C2_witness :
    GameCtx.drawCard emptyDeckState = emptyDeckState :=
  claim_C2_amended_empty_deck_draw_noop emptyDeckState rfl

/-- C3: at the concrete inputs, `getPlayInfo` classifies the low-ace run
2♣3♣4♣5♣A♣ as a straight with rank key 5 (as the spec and the function's
own comment state), but `compareFiveCardCombinations` recomputes a
straight's height as the maximum rank with ace = 14: the 6-high straight
does NOT beat the low-ace straight, and the low-ace straight DOES beat the
6-high one — the comparator contradicts the classifier's documented
rank key. -/
theorem claim_C3_low_ace_divergence :
    playObs (GameRules.getPlayInfo lowAceStraight) =
      some (GameRules.PlayType.straight, 5, some 2) ∧
    GameRules.compareFiveCardCombinations sixHighStraight lowAceStraight
      = false ∧
    GameRules.compareFiveCardCombinations lowAceStraight sixHighStraight
      = true := by
  decide

namespace AIStrategy

theorem findPlaysOfType_fullhouse_types {hand : List CardType}
    {q : GameRules.Play}
    (hq : q ∈ findPlaysOfType hand
      (FindKind.ofPlay GameRules.PlayType.fullhouse)) :
    q.type = GameRules.PlayType.fullhouse := by
  simp only [findPlaysOfType, FindKind.covers] at hq
  simp at hq
  obtain ⟨g, grp, hin, h3, a, a1, b, hts, h2, hq⟩ := hq
  split at hq
  · next pi heq =>
    split at hq
    · next htype =>
      rw [List.mem_singleton] at hq
      subst hq
      simpa using htype
    · simp at hq
  · simp at hq

end AIStrategy

/-- C6 (amended): when a play is required, `chooseBestPlay` enumerates only
candidates of the required play's exact sub-kind, not of its cardinality:
with a TriplePlusTwo required, every play it can return is itself a
TriplePlusTwo, so a hand whose only legal five-card counter is a straight
is passed on (the straight is never enumerated, although it would beat the
incumbent). -/
theorem claim_C6_amended_enumeration_restricted_to_exact_type
    (hand : List CardType) (lp : GameRules.Play)
    (gs : Option AIStrategy.GameStateInfo) (coin : Bool) (p : GameRules.Play)
    (hlp : lp.type = GameRules.PlayType.fullhouse)
    (hp : AIStrategy.chooseBestPlay hand (some lp) gs coin = some p) :
    p.type = GameRules.PlayType.fullhouse := by
  simp only [AIStrategy.chooseBestPlay, Option.isNone_some, Bool.false_and,
    Bool.false_eq_true, if_false] at hp
  rw [hlp] at hp
  split at hp
  · simp at hp
  · split at hp
    · simp at hp
    · next first rest heq =>
      rw [Option.some.injEq] at hp
      subst hp
      have key : ∀ q ∈ first :: rest, q.type = GameRules.PlayType.fullhouse := by
        intro q hqmem
        rw [← heq] at hqmem
        have hq2 := (sortByKey_perm AIStrategy.playSortKey _).mem_iff.1 hqmem
        exact AIStrategy.findPlaysOfType_fullhouse_types
          (List.mem_filter.1 hq2).1
      cases gs with
      | none => exact key first (List.mem_cons_self _ _)
      | some g =>
        dsimp only
        cases hoc : g.opponentCardCount with
        | none => exact key first (List.mem_cons_self _ _)
        | some oc =>
          dsimp only
          split_ifs
          · exact key _ (getLastD_mem (by simp) first)
          · exact key _ (getD_mem (by simp [List.length_cons]; omega) first)
          · exact key _ (getLastD_mem (by simp) first)
          · exact key first (List.mem_cons_self _ _)
          · exact key first (List.mem_cons_self _ _)

/-- C6 (counterexample): `straightOnlyHand` contains a legal straight that
would beat the required TriplePlusTwo (`kingFullhousePlay.cards`), yet
`chooseBestPlay` passes (returns `none`): straights are never enumerated
when the required play's type is `fullhouse`. -/
theorem claim_C6_counterexample :
    GameRules.isValidStraight straightOnlyHand = true ∧
    GameRules.isValidMove straightOnlyHand kingFullhousePlay.cards = true ∧
    AIStrategy.chooseBestPlay straightOnlyHand (some kingFullhousePlay)
      none false = none := by
  decide

theorem claim_C6_witness :
    AIStrategy.chooseBestPlay kingTripleHand (some fiveFullhousePlay)
      none false = some kingFullhouseChoice ∧
    kingFullhouseChoice.type = GameRules.PlayType.fullhouse :=
  ⟨by decide,
   claim_C6_amended_enumeration_restricted_to_exact_type kingTripleHand
     fiveFullhousePlay none false kingFullhouseChoice rfl (by decide)⟩

theorem perm_pair_cases {α : Type} [DecidableEq α] {a b c d : α}
    (h : ([a, b] : List α).Perm [c, d]) :
    (a = c ∧ b = d) ∨ (a = d ∧ b = c) := by
  have ha : a ∈ ([c, d] : List α) := h.subset (by simp)
  rcases List.mem_cons.1 ha with rfl | ha
  · left
    refine ⟨rfl, ?_⟩
    have := h.cons_inv
    simpa using this
  · have had : a = d := by simpa using ha
    subst had
    have hb : b ∈ ([c, a] : List α) := h.subset (by simp)
    rcases List.mem_cons.1 hb with rfl | hb
    · right
      exact ⟨rfl, rfl⟩
    · have hba : b = a := by simpa using hb
      subst hba
      -- both lists are [b, b] up to the perm: count c forces c = b
      have hc : c = b := by
        have hcount := h.count_eq c
        by_contra hne
        simp [List.count_cons, hne, fun hh : b = c => hne hh.symm] at hcount
      subst hc
      left
      exact ⟨rfl, rfl⟩

namespace GameRules

theorem getPlayInfo_len_two {cards : List CardType} {x y : CardType}
    (e : sortByKey sortKey cards = [x, y]) (hlen : cards.length = 2) :
    getPlayInfo cards =
      if x.value = y.value then
        some { type := PlayType.pair, cards := [x, y],
               rankValue := cardValues y.value,
               highestSuitValue :=
                 some (max (suitValues x.suit) (suitValues y.suit)) }
      else none := by
  simp only [getPlayInfo, e, hlen]
  norm_num [List.getLastD_cons]

theorem getPlayInfo_len_three {cards : List CardType} {x y z : CardType}
    (e : sortByKey sortKey cards = [x, y, z]) (hlen : cards.length = 3) :
    getPlayInfo cards =
      if x.value = y.value ∧ y.value = z.value then
        some { type := PlayType.triple, cards := [x, y, z],
               rankValue := cardValues z.value,
               highestSuitValue := none }
      else none := by
  simp only [getPlayInfo, e, hlen]
  norm_num [List.getLastD_cons]

theorem getPlayInfo_len_five {cards : List CardType} (hlen : cards.length = 5) :
    getPlayInfo cards =
      (if isValidStraight (sortByKey sortKey cards) then
        some { type := PlayType.straight, cards := sortByKey sortKey cards,
               rankValue :=
                 if ((uniqueSortedRanks (sortByKey sortKey cards)).length == 5) &&
                     (uniqueSortedRanks (sortByKey sortKey cards) == [2, 3, 4, 5, 14]) then 5
                 else cardValues
                   ((sortByKey sortKey cards).getLastD dummyCard).value,
               highestSuitValue :=
                 some (getHighestSuitInStraight (sortByKey sortKey cards)) }
      else if isValidTriplePlusTwo (sortByKey sortKey cards) then
        some { type := PlayType.fullhouse, cards := sortByKey sortKey cards,
               rankValue :=
                 match ((sortByKey sortKey cards).map (fun c => c.value)).find?
                     (fun v =>
                       ((sortByKey sortKey cards).map (fun c => c.value)).count v
                         == 3) with
                 | some v => cardValues v
                 | none => 0,
               highestSuitValue := none }
      else none) := by
  simp only [getPlayInfo, hlen]
  norm_num

theorem getPlayInfo_len_other {cards : List CardType}
    (h0 : cards.length ≠ 0) (h1 : cards.length ≠ 1) (h2 : cards.length ≠ 2)
    (h3 : cards.length ≠ 3) (h5 : cards.length ≠ 5) :
    getPlayInfo cards = none := by
  simp only [getPlayInfo]
  rw [if_neg h0, if_neg h1, if_neg h2, if_neg h3, if_neg h5]

end GameRules

namespace GameRules

theorem highest_sortKey_eq_of_perm {l₁ l₂ : List CardType} (h : l₁.Perm l₂) :
    sortKey ((sortByKey sortKey l₁).getLastD dummyCard) =
    sortKey ((sortByKey sortKey l₂).getLastD dummyCard) := by
  have hmap := map_sortByKey_eq_of_perm sortKey h
  have e1 := getLastD_map sortKey (sortByKey sortKey l₁) dummyCard
  have e2 := getLastD_map sortKey (sortByKey sortKey l₂) dummyCard
  rw [← e1, ← e2, hmap]

theorem highestRank_eq_of_perm {l₁ l₂ : List CardType} (h : l₁.Perm l₂) :
    cardValues ((sortByKey sortKey l₁).getLastD dummyCard).value =
    cardValues ((sortByKey sortKey l₂).getLastD dummyCard).value := by
  have hk := highest_sortKey_eq_of_perm h
  rw [← sortKey_div, ← sortKey_div, hk]

theorem getHighestSuitInStraight_perm {l₁ l₂ : List CardType}
    (h : l₁.Perm l₂) :
    getHighestSuitInStraight l₁ = getHighestSuitInStraight l₂ := by
  unfold getHighestSuitInStraight
  have hmap := map_sortByKey_eq_of_perm (fun c => 1500 - sortKey c) h
  cases e1 : sortByKey (fun c => 1500 - sortKey c) l₁ with
  | nil =>
    cases e2 : sortByKey (fun c => 1500 - sortKey c) l₂ with
    | nil => rfl
    | cons c2 t2 =>
      rw [e1, e2] at hmap
      simp at hmap
  | cons c1 t1 =>
    cases e2 : sortByKey (fun c => 1500 - sortKey c) l₂ with
    | nil =>
      rw [e1, e2] at hmap
      simp at hmap
    | cons c2 t2 =>
      rw [e1, e2] at hmap
      simp only [List.map_cons, List.cons.injEq] at hmap
      have hd1 := sortKey_le c1
      have hd2 := sortKey_le c2
      have hkey : sortKey c1 = sortKey c2 := by omega
      show suitValues c1.suit = suitValues c2.suit
      rw [← sortKey_mod, ← sortKey_mod, hkey]

theorem triple_guard_of_perm {x y z x' y' z' : CardType}
    (hp : ([x, y, z] : List CardType).Perm [x', y', z'])
    (hg : x.value = y.value ∧ y.value = z.value) :
    (x'.value = y'.value ∧ y'.value = z'.value) ∧ z'.value = z.value := by
  have hmem : ∀ a ∈ ([x', y', z'] : List CardType), a.value = x.value := by
    intro a ha
    have ha2 : a ∈ ([x, y, z] : List CardType) := hp.symm.subset ha
    simp only [List.mem_cons, List.not_mem_nil, or_false] at ha2
    rcases ha2 with rfl | rfl | rfl
    · rfl
    · exact hg.1.symm
    · exact (hg.1.trans hg.2).symm
  have hx' := hmem x' (by simp)
  have hy' := hmem y' (by simp)
  have hz' := hmem z' (by simp)
  exact ⟨⟨hx'.trans hy'.symm, hy'.trans hz'.symm⟩,
    hz'.trans (hg.1.trans hg.2)⟩

theorem getPlayInfo_cards {cards : List CardType} {p : Play}
    (hp : getPlayInfo cards = some p) :
    p.cards = sortByKey sortKey cards := by
  simp only [getPlayInfo] at hp
  split at hp
  · simp at hp
  · split at hp
    · rw [Option.some.injEq] at hp
      rw [← hp]
    · split at hp
      · split at hp
        · split at hp
          · next e =>
            rw [Option.some.injEq] at hp
            rw [← hp]
          · simp at hp
        · simp at hp
      · split at hp
        · split at hp
          · split at hp
            · rw [Option.some.injEq] at hp
              rw [← hp]
            · simp at hp
          · simp at hp
        · split at hp
          · split at hp
            · rw [Option.some.injEq] at hp
              rw [← hp]
            · split at hp
              · rw [Option.some.injEq] at hp
                rw [← hp]
              · simp at hp
          · simp at hp

end GameRules

/-- C9: `getPlayInfo` is permutation-invariant in everything observable —
permuting the selected cards changes neither success nor the type, rank
value or tiebreak suit of the classification, and the member-card lists of
the two results are permutations of each other (the same set of cards). -/
theorem claim_C9_getPlayInfo_permutation_invariant
    (l₁ l₂ : List CardType) (h : l₁.Perm l₂) :
    playObs (GameRules.getPlayInfo l₁) = playObs (GameRules.getPlayInfo l₂) ∧
    (∀ p q : GameRules.Play, GameRules.getPlayInfo l₁ = some p →
      GameRules.getPlayInfo l₂ = some q → p.cards.Perm q.cards) := by
  have hcards : (sortByKey sortKey l₁).Perm (sortByKey sortKey l₂) :=
    ((sortByKey_perm sortKey l₁).trans h).trans (sortByKey_perm sortKey l₂).symm
  have hlen := h.length_eq
  refine ⟨?_, fun p q hp hq => ?_⟩
  case refine_2 =>
    rw [GameRules.getPlayInfo_cards hp, GameRules.getPlayInfo_cards hq]
    exact hcards
  by_cases h0 : l₁.length = 0
  · simp only [GameRules.getPlayInfo]
    rw [if_pos h0, if_pos (by omega)]
  by_cases h1 : l₁.length = 1
  · obtain ⟨a, rfl⟩ := List.length_eq_one.1 h1
    obtain rfl := List.singleton_perm.1 h
    rfl
  by_cases h2 : l₁.length = 2
  · have hs1 : (sortByKey sortKey l₁).length = 2 := by
      rw [sortByKey_length]; exact h2
    have hs2 : (sortByKey sortKey l₂).length = 2 := by
      rw [sortByKey_length]; omega
    obtain ⟨x₁, y₁, e1⟩ := List.length_eq_two.1 hs1
    obtain ⟨x₂, y₂, e2⟩ := List.length_eq_two.1 hs2
    rw [GameRules.getPlayInfo_len_two e1 h2,
      GameRules.getPlayInfo_len_two e2 (by omega)]
    have hpp : ([x₁, y₁] : List CardType).Perm [x₂, y₂] := by
      rw [← e1, ← e2]; exact hcards
    rcases perm_pair_cases hpp with ⟨rfl, rfl⟩ | ⟨rfl, rfl⟩
    · rfl
    · by_cases hv : x₁.value = y₁.value
      · rw [if_pos hv, if_pos hv.symm]
        simp [playObs, hv, Nat.max_comm]
      · rw [if_neg hv, if_neg (fun hh => hv hh.symm)]
  by_cases h3 : l₁.length = 3
  · have hs1 : (sortByKey sortKey l₁).length = 3 := by
      rw [sortByKey_length]; exact h3
    have hs2 : (sortByKey sortKey l₂).length = 3 := by
      rw [sortByKey_length]; omega
    obtain ⟨x₁, y₁, z₁, e1⟩ := List.length_eq_three.1 hs1
    obtain ⟨x₂, y₂, z₂, e2⟩ := List.length_eq_three.1 hs2
    rw [GameRules.getPlayInfo_len_three e1 h3,
      GameRules.getPlayInfo_len_three e2 (by omega)]
    have hpp : ([x₁, y₁, z₁] : List CardType).Perm [x₂, y₂, z₂] := by
      rw [← e1, ← e2]; exact hcards
    by_cases hg : x₁.value = y₁.value ∧ y₁.value = z₁.value
    · have hg2 := GameRules.triple_guard_of_perm hpp hg
      rw [if_pos hg, if_pos hg2.1]
      simp [playObs, hg2.2]
    · have hng : ¬(x₂.value = y₂.value ∧ y₂.value = z₂.value) := by
        intro hg2
        exact hg (GameRules.triple_guard_of_perm hpp.symm hg2).1
      rw [if_neg hg, if_neg hng]
  by_cases h5 : l₁.length = 5
  · rw [GameRules.getPlayInfo_len_five h5,
      GameRules.getPlayInfo_len_five (by omega : l₂.length = 5)]
    have hivs := GameRules.isValidStraight_perm hcards
    have hivt := GameRules.isValidTriplePlusTwo_perm hcards
    have hur := GameRules.uniqueSortedRanks_eq_of_perm hcards
    have hrank := GameRules.highestRank_eq_of_perm h
    have hghs := GameRules.getHighestSuitInStraight_perm hcards
    have hfind := GameRules.find_count3_eq_of_perm
      (hcards.map (fun c => c.value)) (by simp [sortByKey_length, h5])
    rw [hivs, hivt, hur, hghs, hrank, hfind]
    by_cases hs : GameRules.isValidStraight (sortByKey sortKey l₂) = true
    · rw [if_pos hs, if_pos hs]
      rfl
    · rw [if_neg hs, if_neg hs]
      by_cases ht : GameRules.isValidTriplePlusTwo (sortByKey sortKey l₂) = true
      · rw [if_pos ht, if_pos ht]
        rfl
      · rw [if_neg ht, if_neg ht]
  · rw [GameRules.getPlayInfo_len_other h0 h1 h2 h3 h5,
      GameRules.getPlayInfo_len_other (by omega) (by omega) (by omega)
        (by omega) (by omega)]

theorem claim_C9_witness :
    playObs (GameRules.getPlayInfo [card 1 "5" "♠", card 2 "5" "♥"]) =
      playObs (GameRules.getPlayInfo [card 2 "5" "♥", card 1 "5" "♠"]) :=
  (claim_C9_getPlayInfo_permutation_invariant _ _ (by decide)).1
